import Mathlib

/-!
Shallow embedding of the LapTimer turn/timer/score state machine.

Sources:
* `src/src/app/components/GameTimer.tsx` — the session controller component
  (state hooks, `handleEndTurn`, `handleAddVP`, `checkVictoryPoints`,
  `updatePlayerTurnVP`, `toggleTimer`, `saveGameData`, timer effects);
* `src/src/lib/gameOperations.ts` — the persistence gateway
  (`saveTurn`, `saveGameStats`, `updatePlayerTotalVP`, `createGame`);
* `src/unnamed/part_003` — an earlier variant of the same component whose
  `handleEndTurn` appends completed turns to the local `turns` ledger.

JavaScript numbers holding millisecond counters and turn counts are modelled
as `Nat` (they only ever grow by non-negative quanta); victory points are
modelled as `Int` (turn VP entries may be negative).
-/

namespace LapTimer

/-- A player row as held in component state (GameTimer.tsx lines 8-17):
identity, display name, optional side/icon/color, running VP total, the
currently entered (pending) turn VP, and the owning game id. -/
structure Player where
  id : String
  name : String
  side : Option String
  sideIcon : Option String
  color : Option String
  totalVP : Int
  turnVP : Int
  game_id : String
deriving Repr, DecidableEq

/-- A completed turn as stored in the local `turns` ledger
(GameTimer.tsx lines 19-25): player name, optional side, duration in
milliseconds, wall-clock timestamp, and the list of VP deltas entered
during the turn. -/
structure Turn where
  playerName : String
  side : Option String
  duration : Nat
  timestamp : Nat
  turnVPs : List Int
deriving Repr, DecidableEq

/-- A turn row as persisted by `saveTurn` (gameOperations.ts lines 36-83):
the player id, the turn number, the duration and the VP change list that
become `turns` / `vp_changes` rows. -/
structure SavedTurn where
  playerId : String
  turnNumber : Nat
  duration : Nat
  vpChanges : List Int
deriving Repr, DecidableEq

/-- The component state of `GameTimer` (GameTimer.tsx lines 42-55):
run flag, round counter (`turnCounter`, initialised to 1), the three
elapsed-time counters, current player index, local turn ledger, the
accumulated VP deltas of the current turn, and the player list. -/
structure GameState where
  isRunning : Bool
  turnCounter : Nat
  turnElapsedTime : Nat
  gameElapsedTime : Nat
  totalElapsedTime : Nat
  currentPlayerIndex : Nat
  turns : List Turn
  turnVPs : List Int
  players : List Player
deriving Repr, DecidableEq

/-- The initial component state (GameTimer.tsx lines 42-55: `useState(false)`,
`useState(1)`, `useState(0)` three times, `useState(0)`, `useState([])` twice)
with the player list loaded. -/
def initialState (players : List Player) : GameState :=
  { isRunning := false
    turnCounter := 1
    turnElapsedTime := 0
    gameElapsedTime := 0
    totalElapsedTime := 0
    currentPlayerIndex := 0
    turns := []
    turnVPs := []
    players := players }

/-- One VP commit: `Math.max(0, totalVP + turnVP)`
(GameTimer.tsx lines 228 and 304). -/
def commitVP (total : Int) (vp : Int) : Int :=
  max 0 (total + vp)

/-- Folding a whole turn's VP deltas into a player total, each committed by
`commitVP` the way `handleAddVP` and `handleEndTurn` apply them one at a
time. -/
def applyDeltas (total : Int) (ds : List Int) : Int :=
  ds.foldl commitVP total

/-- Decides that no clamp fires while committing `ds` from `total`: every
intermediate `total + d` is already non-negative, so each
`Math.max(0, total + d)` is the identity. -/
def noClamp (total : Int) : List Int → Bool
  | [] => true
  | d :: ds => decide (0 ≤ total + d) && noClamp (total + d) ds

/-- The victory auto-pause effect (GameTimer.tsx lines 130-140): if any
player has `totalVP >= 30` while the timer runs, force `isRunning` to
false. The effect re-runs whenever `players` or `isRunning` change. -/
def checkVictoryPoints (s : GameState) : GameState :=
  if s.players.any (fun p => decide (30 ≤ p.totalVP)) && s.isRunning then
    { s with isRunning := false }
  else s

/-- `updatePlayerTurnVP` (GameTimer.tsx lines 364-373): sets the entered
turn VP of player `i`; negative values are explicitly allowed. The index
always addresses an existing player in the UI. -/
def updatePlayerTurnVP (i : Nat) (v : Int) (s : GameState) : GameState :=
  match s.players[i]? with
  | none => s
  | some p => { s with players := s.players.set i { p with turnVP := v } }

/-- `handleAddVP` (GameTimer.tsx lines 288-318): only while running, only
for an existing current player with an id, and only for a non-zero entered
VP; appends the entry to `turnVPs` and commits it into the player's total
with the non-negative clamp, resetting the entry field. -/
def handleAddVP (s : GameState) : GameState :=
  if s.isRunning then
    match s.players[s.currentPlayerIndex]? with
    | none => s
    | some cp =>
      if cp.id = "" then s
      else if cp.turnVP = 0 then s
      else
        { s with
            turnVPs := s.turnVPs ++ [cp.turnVP]
            players := s.players.set s.currentPlayerIndex
              { cp with totalVP := commitVP cp.totalVP cp.turnVP, turnVP := 0 } }
  else s

/-- The VP-commit phase of `handleEndTurn` (GameTimer.tsx lines 218-256).
If the entered turn VP is non-zero it is appended to the delta list and
committed (clamped) into the total, and a turn row carrying the updated
list is saved; otherwise a turn row is saved only when earlier `Add VP`
entries exist, carrying those; otherwise nothing is saved. -/
def endTurnCommitPhase (s : GameState) (cp : Player) : GameState × List SavedTurn :=
  if cp.turnVP ≠ 0 then
    let updatedTurnVPs := s.turnVPs ++ [cp.turnVP]
    let row : SavedTurn :=
      { playerId := cp.id, turnNumber := s.turnCounter,
        duration := s.turnElapsedTime, vpChanges := updatedTurnVPs }
    ({ s with
        turnVPs := updatedTurnVPs
        players := s.players.set s.currentPlayerIndex
          { cp with totalVP := commitVP cp.totalVP cp.turnVP, turnVP := 0 } },
     [row])
  else if 0 < s.turnVPs.length then
    let row : SavedTurn :=
      { playerId := cp.id, turnNumber := s.turnCounter,
        duration := s.turnElapsedTime, vpChanges := s.turnVPs }
    (s, [row])
  else
    (s, [])

/-- The result of one user-level operation: the next component state, the
turn rows persisted by the operation, and whether an `endTurn` actually
advanced to the next player (a committed turn). -/
structure StepResult where
  state : GameState
  saved : List SavedTurn
  committed : Bool
deriving Repr, DecidableEq

/-- The `endTurn` operation of `GameTimer.tsx`. The run guard is the End
Turn button, rendered with `disabled={!isRunning}` (line 697), so the
handler only fires while running; `handleEndTurn` itself (lines 214-286)
then bails out unless the current player exists with an id and a game id
is present, runs the VP-commit phase, checks the next player exists
(line 261) and finally advances the index modulo the player count, resets
the turn clock and delta list and bumps the round counter on wrap-around. -/
def handleEndTurn (gameId : String) (s : GameState) : StepResult :=
  if s.isRunning then
    match s.players[s.currentPlayerIndex]? with
    | none => ⟨s, [], false⟩
    | some cp =>
      if cp.id = "" ∨ gameId = "" then ⟨s, [], false⟩
      else
        let pr := endTurnCommitPhase s cp
        let nextPlayerIndex := (s.currentPlayerIndex + 1) % s.players.length
        match pr.1.players[nextPlayerIndex]? with
        | none => ⟨pr.1, pr.2, false⟩
        | some np =>
          if np.id = "" then ⟨pr.1, pr.2, false⟩
          else
            ⟨{ pr.1 with
                turnElapsedTime := 0
                currentPlayerIndex := nextPlayerIndex
                turnVPs := []
                turnCounter := pr.1.turnCounter + if nextPlayerIndex = 0 then 1 else 0 },
             pr.2, true⟩
  else ⟨s, [], false⟩

/-- The `handleEndTurn` of the `src/unnamed/part_003` variant (lines
239-293): same guard via the disabled button (line 619), but the completed
turn is always appended to the local `turns` ledger — with the updated
delta list when the entered VP is non-zero, otherwise with the deltas
accumulated so far (possibly empty). `now` stands for `Date.now()`. -/
def part3HandleEndTurn (now : Nat) (s : GameState) : GameState :=
  if s.isRunning then
    match s.players[s.currentPlayerIndex]? with
    | none => s
    | some cp =>
      let afterCommit :=
        if cp.turnVP ≠ 0 then
          let updatedTurnVPs := s.turnVPs ++ [cp.turnVP]
          let newTurn : Turn :=
            { playerName := cp.name, side := cp.side, duration := s.turnElapsedTime,
              timestamp := now, turnVPs := updatedTurnVPs }
          { s with
              turnVPs := updatedTurnVPs
              players := s.players.set s.currentPlayerIndex
                { cp with totalVP := commitVP cp.totalVP cp.turnVP, turnVP := 0 }
              turns := s.turns ++ [newTurn] }
        else
          let newTurn : Turn :=
            { playerName := cp.name, side := cp.side, duration := s.turnElapsedTime,
              timestamp := now, turnVPs := s.turnVPs }
          { s with turns := s.turns ++ [newTurn] }
      let nextPlayerIndex := (s.currentPlayerIndex + 1) % s.players.length
      { afterCommit with
          turnElapsedTime := 0
          currentPlayerIndex := nextPlayerIndex
          turnVPs := []
          turnCounter := afterCommit.turnCounter + if nextPlayerIndex = 0 then 1 else 0 }
  else s

/-- The user-level operations that mutate session state. -/
inductive Action where
  | toggleTimer
  | setTurnVP (i : Nat) (v : Int)
  | addVP
  | endTurn
  | tick
  | totalTick
deriving Repr, DecidableEq

/-- One operation before the victory-check effect: `toggleTimer`
(lines 376-382), `updatePlayerTurnVP`, `handleAddVP`, `handleEndTurn`,
the running per-second tick (lines 321-336) and the unconditional
total-time tick (lines 339-345). -/
def stepRaw (gameId : String) (a : Action) (s : GameState) : StepResult :=
  match a with
  | .toggleTimer => ⟨{ s with isRunning := !s.isRunning }, [], false⟩
  | .setTurnVP i v => ⟨updatePlayerTurnVP i v s, [], false⟩
  | .addVP => ⟨handleAddVP s, [], false⟩
  | .endTurn => handleEndTurn gameId s
  | .tick =>
      ⟨if s.isRunning then
        { s with turnElapsedTime := s.turnElapsedTime + 1000
                 gameElapsedTime := s.gameElapsedTime + 1000 }
       else s, [], false⟩
  | .totalTick => ⟨{ s with totalElapsedTime := s.totalElapsedTime + 1000 }, [], false⟩

/-- One operation followed by the victory-check effect, which React runs
after every render in which `players` or `isRunning` changed
(GameTimer.tsx lines 130-140); `checkVictoryPoints` is a no-op when its
dependencies did not change, so running it after every operation is
extensionally the effect's behaviour. -/
def step (gameId : String) (a : Action) (s : GameState) : StepResult :=
  let r := stepRaw gameId a s
  ⟨checkVictoryPoints r.state, r.saved, r.committed⟩

/-- Runs a list of operations, accumulating the number of committed turns
and the turn rows persisted along the way. -/
def run (gameId : String) (acts : List Action) (s : GameState) :
    GameState × Nat × List SavedTurn :=
  match acts with
  | [] => (s, 0, [])
  | a :: rest =>
    let r := step gameId a s
    let t := run gameId rest r.state
    (t.1, (if r.committed then 1 else 0) + t.2.1, r.saved ++ t.2.2)

/-- JavaScript `Math.round (a / b)` for natural `a` and positive `b`:
the nearest integer to `a / b`, halves rounding up, computed as
`⌊(2 * a + b) / (2 * b)⌋ = ⌊a / b + 1 / 2⌋`. -/
def jsRoundDiv (a b : Nat) : Nat :=
  (2 * a + b) / (2 * b)

/-- One player's derived statistics record (GameTimer.tsx lines 27-33). -/
structure PlayerStats where
  lastTurn : Nat
  averageTurn : Nat
  totalTime : Nat
  turnCount : Nat
  percentage : Nat
deriving Repr, DecidableEq

/-- The per-turn update of one player's statistics record, the body of the
`turns.forEach` loop (GameTimer.tsx lines 77-83): remember the most recent
duration, accumulate total time and turn count, and recompute
`averageTurn = Math.round(totalTime / turnCount)`. -/
def statsUpdate (t : Turn) (st : PlayerStats) : PlayerStats :=
  let totalTime := st.totalTime + t.duration
  let turnCount := st.turnCount + 1
  { lastTurn := t.duration
    averageTurn := jsRoundDiv totalTime turnCount
    totalTime := totalTime
    turnCount := turnCount
    percentage := st.percentage }

/-- The `playerStats` memo (GameTimer.tsx lines 62-114) as a map from player
name to statistics: every record starts zeroed with the stored percentage
(lines 66-74) and each ledger turn updates its player's record (lines
77-83). The percentage recompute block (lines 86-111) is display-only
floating-point logic, recomputed in batch at trigger points, and does not
touch the duration statistics; it is not modelled. -/
def playerStats (percentages : String → Nat) (turns : List Turn) :
    String → PlayerStats :=
  turns.foldl
    (fun stats t => fun name =>
      if name = t.playerName then statsUpdate t (stats t.playerName)
      else stats name)
    (fun name => { lastTurn := 0, averageTurn := 0, totalTime := 0,
                   turnCount := 0, percentage := percentages name })

/-! ## Persistence gateway (`src/src/lib/gameOperations.ts`)

Each call to the hosted data store either yields a row or fails; the
outcome of every underlying call is an explicit input of the gateway
functions, so that the functions' error propagation is visible. -/

/-- The outcome of one underlying data-store call: a row, or a failure.
The failure case also covers a thrown transport error and a null `data`
(the code treats `turnError || !turnData` alike, line 56). -/
inductive DbResult (α : Type) where
  | ok (a : α)
  | err (e : String)
deriving Repr, DecidableEq

/-- The `turns` row returned by the insert in `saveTurn`
(gameOperations.ts lines 45-54). -/
structure TurnRow where
  id : String
deriving Repr, DecidableEq

/-- The `game_stats` row returned by the upsert in `saveGameStats`. -/
structure GameStatsRow where
  game_id : String
  current_turn_number : Nat
  turn_elapsed_time : Nat
  game_elapsed_time : Nat
  total_elapsed_time : Nat
deriving Repr, DecidableEq

/-- What a gateway function hands back to its caller: the row on success
and the error on failure, mirroring the `{ data, error }` result objects
returned on every path of gameOperations.ts. -/
structure GatewayResult (α : Type) where
  data : Option α
  error : Option String
deriving Repr, DecidableEq

/-- The outcomes of the two underlying calls made by `saveTurn`: the
`turns` insert and the `vp_changes` insert. -/
structure SaveTurnOutcome where
  insertTurn : DbResult TurnRow
  insertVPs : DbResult Unit
deriving Repr, DecidableEq

/-- The `try` body of `saveTurn` (gameOperations.ts lines 43-78): insert
the turn row, `throw` on failure (line 57), then insert the VP-change rows
when the list is non-empty, `throw` on failure (line 74); a throw is an
`Except.error`. -/
def saveTurnBody (vpChanges : List Int) (o : SaveTurnOutcome) :
    Except String TurnRow :=
  match o.insertTurn with
  | .err e => .error e
  | .ok row =>
    if vpChanges.length > 0 then
      match o.insertVPs with
      | .err e => .error e
      | .ok _ => .ok row
    else .ok row

/-- `saveTurn` (gameOperations.ts lines 36-83): the `try` body wrapped in
the `catch` that converts any thrown error into a returned
`{ data: null, error }` value (lines 79-82). -/
def saveTurn (vpChanges : List Int) (o : SaveTurnOutcome) : GatewayResult TurnRow :=
  match saveTurnBody vpChanges o with
  | .ok row => { data := some row, error := none }
  | .error e => { data := none, error := some e }

/-- `saveGameStats` (gameOperations.ts lines 4-34): a single upsert whose
`{ data, error }` is passed through; the `catch` returns
`{ data: null, error }` for a thrown error, the same shape. -/
def saveGameStats (o : DbResult GameStatsRow) : GatewayResult GameStatsRow :=
  match o with
  | .ok r => { data := some r, error := none }
  | .err e => { data := none, error := some e }

/-- `updatePlayerTotalVP` (gameOperations.ts lines 85-102): a single update
whose `{ data, error }` is passed through, with the same `catch` shape. -/
def updatePlayerTotalVP (o : DbResult Player) : GatewayResult Player :=
  match o with
  | .ok r => { data := some r, error := none }
  | .err e => { data := none, error := some e }

/-- The outcomes of the underlying calls made by the full session save
`saveGameData` (GameTimer.tsx lines 385-481): the `games` update, the
`turns` delete, the `players` select, the bulk `turns` insert, and the
per-player `total_vp` updates (whose failures are only logged,
lines 461-474). -/
structure SaveGameDataOutcome where
  updateGame : DbResult Unit
  clearTurns : DbResult Unit
  fetchPlayers : DbResult (List (String × String))
  insertTurns : DbResult Unit
  updateVP : List (DbResult Unit)
deriving Repr, DecidableEq

/-- `saveGameData` (GameTimer.tsx lines 385-481). It first pauses the game
if it is running (lines 390-392) — its only write to session state — then
performs the save steps, returning `false` as soon as one of the essential
steps fails and `true` otherwise; per-player VP-update errors are logged
but do not fail the save; the outer `catch` also returns `false`. The
component state is threaded to show it is returned untouched apart from
the pause. -/
def saveGameData (s : GameState) (o : SaveGameDataOutcome) : Bool × GameState :=
  let s1 := { s with isRunning := false }
  match o.updateGame with
  | .err _ => (false, s1)
  | .ok _ =>
    match o.clearTurns with
    | .err _ => (false, s1)
    | .ok _ =>
      match o.fetchPlayers with
      | .err _ => (false, s1)
      | .ok _ =>
        if 0 < s.turns.length then
          match o.insertTurns with
          | .err _ => (false, s1)
          | .ok _ => (true, s1)
        else (true, s1)

/-- The initial `game_stats` row inserted by `createGame`
(gameOperations.ts lines 341-351): turn number 1, all elapsed times 0. -/
def createGameInitialStats (gid : String) : GameStatsRow :=
  { game_id := gid
    current_turn_number := 1
    turn_elapsed_time := 0
    game_elapsed_time := 0
    total_elapsed_time := 0 }

/-! ## Concrete fixtures for scenario runs -/

/-- A player as created by game setup (`createGame` inserts players with
`total_vp: 0, turn_vp: 0`), with a chosen starting total for scenarios that
assume one. -/
def mkPlayer (i n : String) (tot : Int) : Player :=
  { id := i, name := n, side := none, sideIcon := none, color := none,
    totalVP := tot, turnVP := 0, game_id := "g" }

/-- A one-player session's player list. -/
def onePlayer : List Player := [mkPlayer "a" "P1" 0]

/-- The spec scenario player for negative-delta clamping: totalVP = 2. -/
def clampPlayers : List Player := [mkPlayer "a" "P1" 2]

/-- A three-player session's player list. -/
def threePlayers : List Player :=
  [mkPlayer "a" "P1" 0, mkPlayer "b" "P2" 0, mkPlayer "c" "P3" 0]

/-- Three players, start the clock, then end seven turns. -/
def sevenTurnRun : GameState × Nat × List SavedTurn :=
  run "g" (Action.toggleTimer :: List.replicate 7 Action.endTurn)
    (initialState threePlayers)

/-- A running one-player session in which no VP was entered this turn. -/
def runningNoVPState : GameState :=
  (run "g" [Action.toggleTimer] (initialState onePlayer)).1

/-- A ledger with two turns for P1 (10000 ms and 5000 ms) and one for P2. -/
def demoTurns : List Turn :=
  [{ playerName := "P1", side := none, duration := 10000, timestamp := 0, turnVPs := [5] },
   { playerName := "P2", side := none, duration := 4000, timestamp := 1, turnVPs := [] },
   { playerName := "P1", side := none, duration := 5000, timestamp := 2, turnVPs := [] }]

/-- A running session whose single player has reached 30 VP. -/
def winState : GameState :=
  { initialState [mkPlayer "a" "P1" 30] with isRunning := true }

/-- A `saveTurn` whose `turns` insert fails. -/
def failTurnOutcome : SaveTurnOutcome :=
  { insertTurn := DbResult.err "boom", insertVPs := DbResult.ok () }

/-- A full session save whose `games` update fails. -/
def failSaveOutcome : SaveGameDataOutcome :=
  { updateGame := DbResult.err "down", clearTurns := DbResult.ok ()
    fetchPlayers := DbResult.ok [], insertTurns := DbResult.ok ()
    updateVP := [] }

/-! ## Basic commit lemmas -/

/-- A committed total is never negative. -/
lemma commitVP_nonneg (t d : Int) : 0 ≤ commitVP t d :=
  le_max_left 0 (t + d)

/-- When the clamp does not fire, the commit is plain addition. -/
lemma commitVP_of_nonneg (t d : Int) (h : 0 ≤ t + d) : commitVP t d = t + d :=
  max_eq_right h

/-- The clamp can only raise the total. -/
lemma le_commitVP (t d : Int) : t + d ≤ commitVP t d :=
  le_max_right 0 (t + d)

/-- Folding deltas is monotone in the starting total. -/
lemma applyDeltas_mono (ds : List Int) :
    ∀ t t' : Int, t ≤ t' → applyDeltas t ds ≤ applyDeltas t' ds := by
  induction ds with
  | nil => intro t t' h; exact h
  | cons d ds ih =>
    intro t t' h
    exact ih (commitVP t d) (commitVP t' d) (max_le_max le_rfl (add_le_add_right h d))

/-- The clamped fold dominates plain summation. -/
lemma le_applyDeltas_sum (ds : List Int) :
    ∀ t : Int, t + ds.sum ≤ applyDeltas t ds := by
  induction ds with
  | nil => intro t; simp [applyDeltas]
  | cons d ds ih =>
    intro t
    have h1 : t + (d :: ds).sum = (t + d) + ds.sum := by
      simp [List.sum_cons]; ring
    calc t + (d :: ds).sum = (t + d) + ds.sum := h1
      _ ≤ applyDeltas (t + d) ds := ih (t + d)
      _ ≤ applyDeltas (commitVP t d) ds :=
            applyDeltas_mono ds (t + d) (commitVP t d) (le_commitVP t d)
      _ = applyDeltas t (d :: ds) := rfl

/-- When no clamp fires, the fold is plain summation. -/
lemma applyDeltas_of_noClamp (ds : List Int) :
    ∀ t : Int, noClamp t ds = true → applyDeltas t ds = t + ds.sum := by
  induction ds with
  | nil => intro t _; simp [applyDeltas]
  | cons d ds ih =>
    intro t h
    rw [noClamp, Bool.and_eq_true, decide_eq_true_eq] at h
    have hc : commitVP t d = t + d := commitVP_of_nonneg t d h.1
    have : applyDeltas t (d :: ds) = applyDeltas (t + d) ds := by
      simp [applyDeltas, hc]
    rw [this, ih (t + d) h.2, List.sum_cons]
    ring

/-! ## C1 — sum of a turn's recorded VP deltas vs the net change applied -/

/-- C1 counterexample: start the spec's clamping scenario (P1 has
totalVP = 2), enter a pending VP of −5 and end the turn. The ledger row
records the raw delta list `[-5]` whose sum is −5, but the player's total
moves from 2 to 0, a net change of −2: the recorded sum does not equal the
net applied change once the non-negative clamp fires. -/
theorem vp_sum_mismatch_on_clamp :
    (run "g" [Action.toggleTimer, Action.setTurnVP 0 (-5), Action.endTurn]
        (initialState clampPlayers)).2.2.map SavedTurn.vpChanges = [[(-5 : Int)]] ∧
    (run "g" [Action.toggleTimer, Action.setTurnVP 0 (-5), Action.endTurn]
        (initialState clampPlayers)).1.players.map Player.totalVP = [(0 : Int)] ∧
    ¬ List.sum [(-5 : Int)] = (0 : Int) - 2 := by
  decide

/-- C1 (amended): the net change the clamped commits apply to a player's
total is bounded below by the sum of the recorded delta list, and equals
that sum exactly when the non-negative clamp never takes effect during the
turn's commits. -/
theorem vp_sum_eq_net_without_clamp (t : Int) (ds : List Int) :
    t + ds.sum ≤ applyDeltas t ds ∧
    (noClamp t ds = true → applyDeltas t ds = t + ds.sum) :=
  ⟨le_applyDeltas_sum ds t, applyDeltas_of_noClamp ds t⟩

/-- C1 witness: a clamp-free turn (total 2, deltas 3 then −1) where the
fold is exactly the sum. -/
theorem vp_sum_eq_net_without_clamp_w :
    applyDeltas 2 [3, -1] = 2 + List.sum [3, -1] :=
  (vp_sum_eq_net_without_clamp 2 [3, -1]).2 (by decide)

/-! ## C2 — 3 players, 7 committed turns -/

/-- C2 counterexample: with 3 players and 7 committed turns the round
counter is not 2 — it starts at 1 and is incremented on each wrap
(after turns 3 and 6), ending at 3. -/
theorem seven_turns_round_not_two :
    sevenTurnRun.2.1 = 7 ∧ ¬ sevenTurnRun.1.turnCounter = 2 := by
  decide

/-- C2 (amended): with 3 players, after exactly 7 committed endTurn calls
from the initial state the round counter equals 3 (its initial value 1
plus `7 / 3 = 2` wrap increments) and the current player index equals 1. -/
theorem seven_turns_round_and_index :
    sevenTurnRun.2.1 = 7 ∧
    sevenTurnRun.1.turnCounter = 1 + 7 / 3 ∧
    sevenTurnRun.1.currentPlayerIndex = 1 := by
  decide

/-! ## C7 — endTurn is a no-op without a running clock and current player -/

/-- C7: with the clock paused (the End Turn button is disabled) or no
current player at the index, `endTurn` changes nothing: no VP commit, no
ledger row, no advance — the state is returned untouched. -/
theorem endTurn_noop_when_invalid (g : String) (s : GameState)
    (h : s.isRunning = false ∨ s.players[s.currentPlayerIndex]? = none) :
    handleEndTurn g s = ⟨s, [], false⟩ := by
  rcases h with h | h
  · simp [handleEndTurn, h]
  · by_cases hr : s.isRunning
    · simp [handleEndTurn, hr, h]
    · simp [handleEndTurn, hr]

/-- C7 witness: the freshly loaded session is paused, so `endTurn` leaves
it untouched. -/
theorem endTurn_noop_when_invalid_w :
    handleEndTurn "g" (initialState onePlayer) =
      ⟨initialState onePlayer, [], false⟩ :=
  endTurn_noop_when_invalid "g" (initialState onePlayer) (Or.inl rfl)

/-! ## C10 — initial session state and initial game_stats row -/

/-- C10: a fresh session starts paused with round counter 1, player index
0, all three elapsed-time counters 0, an empty ledger and an empty pending
VP-delta list; the initial `game_stats` row written by `createGame`
records the same turn number and elapsed times. -/
theorem initial_session_and_stats_row (ps : List Player) (gid : String) :
    (initialState ps).isRunning = false ∧
    (initialState ps).turnCounter = 1 ∧
    (initialState ps).currentPlayerIndex = 0 ∧
    (initialState ps).turnElapsedTime = 0 ∧
    (initialState ps).gameElapsedTime = 0 ∧
    (initialState ps).totalElapsedTime = 0 ∧
    (initialState ps).turns = [] ∧
    (initialState ps).turnVPs = [] ∧
    (createGameInitialStats gid).current_turn_number = (initialState ps).turnCounter ∧
    (createGameInitialStats gid).turn_elapsed_time = (initialState ps).turnElapsedTime ∧
    (createGameInitialStats gid).game_elapsed_time = (initialState ps).gameElapsedTime ∧
    (createGameInitialStats gid).total_elapsed_time = (initialState ps).totalElapsedTime :=
  ⟨rfl, rfl, rfl, rfl, rfl, rfl, rfl, rfl, rfl, rfl, rfl, rfl⟩

/-! ## C6 — victory auto-pause -/

/-- The victory check never touches the player list. -/
lemma checkVictoryPoints_players (s : GameState) :
    (checkVictoryPoints s).players = s.players := by
  unfold checkVictoryPoints
  split <;> rfl

/-- The victory check never touches the player index. -/
lemma checkVictoryPoints_index (s : GameState) :
    (checkVictoryPoints s).currentPlayerIndex = s.currentPlayerIndex := by
  unfold checkVictoryPoints
  split <;> rfl

/-- If the clock is still running after the victory check, every player is
below the 30-VP threshold. -/
lemma checkVictoryPoints_sound (s : GameState)
    (h : (checkVictoryPoints s).isRunning = true) :
    ∀ q ∈ (checkVictoryPoints s).players, q.totalVP < 30 := by
  intro q hq
  rw [checkVictoryPoints_players] at hq
  unfold checkVictoryPoints at h
  by_cases hc : (s.players.any (fun p => decide (30 ≤ p.totalVP)) && s.isRunning) = true
  · rw [if_pos hc] at h
    exact absurd h (by simp)
  · by_contra hge
    push_neg at hge
    rw [if_neg hc] at h
    exact hc (by
      rw [Bool.and_eq_true]
      exact ⟨List.any_eq_true.mpr ⟨q, hq, decide_eq_true hge⟩, h⟩)

/-- C6: whenever a player's totalVP has reached the hard-coded threshold
of 30 while the clock runs, the victory-check effect forces the clock off;
and after any operation (each of which is followed by the check), the
session is never left running with a player at or above 30. -/
theorem victory_auto_pause (s t : GameState) (g : String) (a : Action) (p : Player)
    (hp : p ∈ s.players) (h30 : 30 ≤ p.totalVP) (hrun : s.isRunning = true) :
    (checkVictoryPoints s).isRunning = false ∧
    ∀ q ∈ (step g a t).state.players,
      (step g a t).state.isRunning = true → q.totalVP < 30 := by
  constructor
  · unfold checkVictoryPoints
    rw [if_pos (show (s.players.any (fun p => decide (30 ≤ p.totalVP)) && s.isRunning) = true by
      rw [Bool.and_eq_true]
      exact ⟨List.any_eq_true.mpr ⟨p, hp, decide_eq_true h30⟩, hrun⟩)]
  · intro q hq hr
    exact checkVictoryPoints_sound (stepRaw g a t).state hr q hq

/-- C6 witness: a running one-player session at exactly 30 VP is paused by
the check. -/
theorem victory_auto_pause_w :
    (checkVictoryPoints winState).isRunning = false :=
  (victory_auto_pause winState winState "g" Action.totalTick
    (mkPlayer "a" "P1" 30) (by decide) (by decide) (by decide)).1

/-! ## C3 — what endTurn appends to the Turn Ledger -/

/-- C3 counterexample: in the `GameTimer.tsx` variant, a running session
whose current player exists but whose turn had no VP activity commits the
turn (the index advances) yet persists no turn row at all — `endTurn` does
not append a ledger entry for every turn. -/
theorem endTurn_zero_vp_saves_no_row :
    runningNoVPState.isRunning = true ∧
    (runningNoVPState.players[runningNoVPState.currentPlayerIndex]?).isSome = true ∧
    (handleEndTurn "g" runningNoVPState).committed = true ∧
    (handleEndTurn "g" runningNoVPState).saved = [] := by
  decide

/-- C3 (amended): for a valid `endTurn` (running, current player with an
id, game id present), the `GameTimer.tsx` variant saves exactly one turn
row when the turn has at least one VP delta (a non-zero pending VP or a
non-empty accumulated list) and none otherwise, while the
`src/unnamed/part_003` variant always appends exactly one ledger entry for
the current player, carrying the turn-elapsed duration and the turn's
accumulated VP-delta list. -/
theorem endTurn_ledger_append (g : String) (now : Nat) (s : GameState) (cp : Player)
    (hrun : s.isRunning = true)
    (hcp : s.players[s.currentPlayerIndex]? = some cp)
    (hid : ¬ cp.id = "") (hg : ¬ g = "") :
    (handleEndTurn g s).saved.length =
      (if cp.turnVP ≠ 0 ∨ s.turnVPs ≠ [] then 1 else 0) ∧
    (part3HandleEndTurn now s).turns =
      s.turns ++ [{ playerName := cp.name, side := cp.side,
                    duration := s.turnElapsedTime, timestamp := now,
                    turnVPs := if cp.turnVP = 0 then s.turnVPs
                               else s.turnVPs ++ [cp.turnVP] }] := by
  constructor
  · have hsaved : (handleEndTurn g s).saved = (endTurnCommitPhase s cp).2 := by
      simp only [handleEndTurn, hrun, hcp, if_true]
      rw [if_neg (by simp [hid, hg])]
      split
      · rfl
      · split <;> rfl
    rw [hsaved]
    by_cases h1 : cp.turnVP = 0
    · by_cases h2 : s.turnVPs = []
      · simp [endTurnCommitPhase, h1, h2]
      · have : 0 < s.turnVPs.length := List.length_pos.mpr h2
        simp [endTurnCommitPhase, h1, h2, this]
    · simp [endTurnCommitPhase, h1]
  · by_cases h1 : cp.turnVP = 0
    · simp [part3HandleEndTurn, hrun, hcp, h1]
    · simp [part3HandleEndTurn, hrun, hcp, h1]

/-- C3 witness: the zero-VP committed turn of the counterexample state
saves no row in the `GameTimer.tsx` variant but still appends exactly one
ledger entry in the part_003 variant. -/
theorem endTurn_ledger_append_w :
    (handleEndTurn "g" runningNoVPState).saved.length = 0 ∧
    (part3HandleEndTurn 0 runningNoVPState).turns.length =
      runningNoVPState.turns.length + 1 := by
  have h := endTurn_ledger_append "g" 0 runningNoVPState (mkPlayer "a" "P1" 0)
    (by decide) (by decide) (by decide) (by decide)
  constructor
  · rw [h.1]; decide
  · rw [h.2]; simp

/-! ## Per-operation structure lemmas -/

/-- The commit phase never changes the number of players. -/
lemma endTurnCommitPhase_players_length (s : GameState) (cp : Player) :
    (endTurnCommitPhase s cp).1.players.length = s.players.length := by
  unfold endTurnCommitPhase
  split
  · simp
  · split <;> rfl

/-- The commit phase never changes the player index. -/
lemma endTurnCommitPhase_index (s : GameState) (cp : Player) :
    (endTurnCommitPhase s cp).1.currentPlayerIndex = s.currentPlayerIndex := by
  unfold endTurnCommitPhase
  split
  · rfl
  · split <;> rfl

/-- `endTurn` either does not commit and keeps the index, or commits and
advances the index by exactly one modulo the player count. -/
lemma handleEndTurn_cases (g : String) (s : GameState) :
    ((handleEndTurn g s).committed = false ∧
      (handleEndTurn g s).state.currentPlayerIndex = s.currentPlayerIndex) ∨
    ((handleEndTurn g s).committed = true ∧
      (handleEndTurn g s).state.currentPlayerIndex =
        (s.currentPlayerIndex + 1) % s.players.length) := by
  unfold handleEndTurn
  split
  · split
    · left; exact ⟨rfl, rfl⟩
    · split
      · left; exact ⟨rfl, rfl⟩
      · dsimp only
        split
        · left; exact ⟨rfl, endTurnCommitPhase_index s _⟩
        · split
          · left; exact ⟨rfl, endTurnCommitPhase_index s _⟩
          · right; exact ⟨rfl, rfl⟩
  · left; exact ⟨rfl, rfl⟩

/-- `endTurn` never changes the number of players. -/
lemma handleEndTurn_players_length (g : String) (s : GameState) :
    (handleEndTurn g s).state.players.length = s.players.length := by
  unfold handleEndTurn
  split
  · split
    · rfl
    · split
      · rfl
      · dsimp only
        split
        · exact endTurnCommitPhase_players_length s _
        · split
          · exact endTurnCommitPhase_players_length s _
          · exact endTurnCommitPhase_players_length s _
  · rfl

/-- Setting an entered turn VP never changes the number of players. -/
lemma updatePlayerTurnVP_players_length (i : Nat) (v : Int) (s : GameState) :
    (updatePlayerTurnVP i v s).players.length = s.players.length := by
  unfold updatePlayerTurnVP
  split
  · rfl
  · simp

/-- Setting an entered turn VP never changes the player index. -/
lemma updatePlayerTurnVP_index (i : Nat) (v : Int) (s : GameState) :
    (updatePlayerTurnVP i v s).currentPlayerIndex = s.currentPlayerIndex := by
  unfold updatePlayerTurnVP
  split <;> rfl

/-- `Add VP` never changes the number of players. -/
lemma handleAddVP_players_length (s : GameState) :
    (handleAddVP s).players.length = s.players.length := by
  unfold handleAddVP
  split
  · split
    · rfl
    · split
      · rfl
      · split
        · rfl
        · simp
  · rfl

/-- `Add VP` never changes the player index. -/
lemma handleAddVP_index (s : GameState) :
    (handleAddVP s).currentPlayerIndex = s.currentPlayerIndex := by
  unfold handleAddVP
  split
  · split
    · rfl
    · split
      · rfl
      · split <;> rfl
  · rfl

/-- No operation changes the number of players. -/
lemma step_players_length (g : String) (a : Action) (s : GameState) :
    (step g a s).state.players.length = s.players.length := by
  have h : (step g a s).state = checkVictoryPoints (stepRaw g a s).state := rfl
  rw [h, checkVictoryPoints_players]
  cases a with
  | toggleTimer => rfl
  | setTurnVP i v => exact updatePlayerTurnVP_players_length i v s
  | addVP => exact handleAddVP_players_length s
  | endTurn => exact handleEndTurn_players_length g s
  | tick =>
    show (if s.isRunning then _ else s).players.length = s.players.length
    split <;> rfl
  | totalTick => rfl

/-- One operation either leaves the index alone (no committed turn) or
advances it by exactly one modulo the player count (a committed turn). -/
lemma step_index_cases (g : String) (a : Action) (s : GameState) :
    ((step g a s).committed = false ∧
      (step g a s).state.currentPlayerIndex = s.currentPlayerIndex) ∨
    ((step g a s).committed = true ∧
      (step g a s).state.currentPlayerIndex =
        (s.currentPlayerIndex + 1) % s.players.length) := by
  have hst : (step g a s).state = checkVictoryPoints (stepRaw g a s).state := rfl
  have hcm : (step g a s).committed = (stepRaw g a s).committed := rfl
  rw [hst, hcm, checkVictoryPoints_index]
  cases a with
  | toggleTimer => left; exact ⟨rfl, rfl⟩
  | setTurnVP i v => left; exact ⟨rfl, updatePlayerTurnVP_index i v s⟩
  | addVP => left; exact ⟨rfl, handleAddVP_index s⟩
  | endTurn => exact handleEndTurn_cases g s
  | tick =>
    left
    refine ⟨rfl, ?_⟩
    show (if s.isRunning then _ else s).currentPlayerIndex = s.currentPlayerIndex
    split <;> rfl
  | totalTick => left; exact ⟨rfl, rfl⟩

/-! ## C5 — the current player index tracks committed turns mod playerCount -/

/-- Fold invariant for `run`: if the index currently equals `x` modulo the
player count, then after any action sequence it equals `x` plus the number
of committed turns, modulo the unchanged player count. -/
lemma run_index_invariant (g : String) (acts : List Action) :
    ∀ (s : GameState) (x n : Nat), s.players.length = n →
      s.currentPlayerIndex = x % n →
      (run g acts s).1.players.length = n ∧
      (run g acts s).1.currentPlayerIndex = (x + (run g acts s).2.1) % n := by
  induction acts with
  | nil =>
    intro s x n hn hx
    exact ⟨hn, by simpa [run] using hx⟩
  | cons a rest ih =>
    intro s x n hn hx
    have hlen : (step g a s).state.players.length = n := by
      rw [step_players_length, hn]
    have h1 : (run g (a :: rest) s).1 = (run g rest (step g a s).state).1 := rfl
    have h2 : (run g (a :: rest) s).2.1 =
        (if (step g a s).committed then 1 else 0) +
          (run g rest (step g a s).state).2.1 := rfl
    rcases step_index_cases g a s with ⟨hc, hi⟩ | ⟨hc, hi⟩
    · have hx' : (step g a s).state.currentPlayerIndex = x % n := by rw [hi, hx]
      obtain ⟨l1, l2⟩ := ih (step g a s).state x n hlen hx'
      refine ⟨by rw [h1, l1], ?_⟩
      rw [h1, h2, hc, l2]
      simp
    · have hx' : (step g a s).state.currentPlayerIndex = (x + 1) % n := by
        rw [hi, hx, hn, Nat.mod_add_mod]
      obtain ⟨l1, l2⟩ := ih (step g a s).state (x + 1) n hlen hx'
      refine ⟨by rw [h1, l1], ?_⟩
      rw [h1, h2, hc, l2]
      have harith : x + (1 + (run g rest (step g a s).state).2.1) =
          x + 1 + (run g rest (step g a s).state).2.1 := by omega
      simp only [if_true]
      rw [harith]

/-- C5: for a non-empty player list and any sequence of operations from
the initial state, the current player index equals the number of committed
turns modulo the player count, stays strictly below the player count, and
each single operation advances it by exactly one modulo the player count
exactly when it commits a turn. -/
theorem current_index_mod (g : String) (ps : List Player) (acts : List Action)
    (h : ps ≠ []) :
    (run g acts (initialState ps)).1.currentPlayerIndex
        = (run g acts (initialState ps)).2.1 % ps.length ∧
    (run g acts (initialState ps)).1.currentPlayerIndex < ps.length ∧
    ∀ (t : GameState) (a : Action),
      ((step g a t).committed = true →
        (step g a t).state.currentPlayerIndex =
          (t.currentPlayerIndex + 1) % t.players.length) ∧
      ((step g a t).committed = false →
        (step g a t).state.currentPlayerIndex = t.currentPlayerIndex) := by
  have hx : (initialState ps).currentPlayerIndex = 0 % ps.length := by
    simp [initialState]
  obtain ⟨_, l2⟩ := run_index_invariant g acts (initialState ps) 0 ps.length rfl hx
  have l2' : (run g acts (initialState ps)).1.currentPlayerIndex =
      (run g acts (initialState ps)).2.1 % ps.length := by simpa using l2
  refine ⟨l2', ?_, ?_⟩
  · rw [l2']
    exact Nat.mod_lt _ (List.length_pos.mpr h)
  · intro t a
    rcases step_index_cases g a t with ⟨hc, hi⟩ | ⟨hc, hi⟩
    · exact ⟨fun hct => by simp [hc] at hct, fun _ => hi⟩
    · exact ⟨fun _ => hi, fun hcf => by simp [hc] at hcf⟩

/-- C5 witness: the three-player seven-turn run has index
7 mod 3 = 1, within bounds. -/
theorem current_index_mod_w :
    sevenTurnRun.1.currentPlayerIndex = sevenTurnRun.2.1 % threePlayers.length ∧
    sevenTurnRun.1.currentPlayerIndex < threePlayers.length := by
  have h := current_index_mod "g" threePlayers
    (Action.toggleTimer :: List.replicate 7 Action.endTurn) (by decide)
  exact ⟨h.1, h.2.1⟩

/-! ## C4 — totalVP is never negative -/

/-- Replacing one player with a non-negative-total player preserves
non-negativity of all totals. -/
lemma set_preserves_nonneg {l : List Player} {i : Nat} {q : Player}
    (h : ∀ p ∈ l, 0 ≤ p.totalVP) (hq : 0 ≤ q.totalVP) :
    ∀ p ∈ l.set i q, 0 ≤ p.totalVP := by
  intro p hp
  rcases List.mem_or_eq_of_mem_set hp with hm | he
  · exact h p hm
  · rw [he]; exact hq

/-- Setting an entered turn VP preserves non-negative totals. -/
lemma updatePlayerTurnVP_nonneg (i : Nat) (v : Int) (s : GameState)
    (h : ∀ p ∈ s.players, 0 ≤ p.totalVP) :
    ∀ p ∈ (updatePlayerTurnVP i v s).players, 0 ≤ p.totalVP := by
  unfold updatePlayerTurnVP
  split
  · exact h
  · next p0 heq =>
      exact set_preserves_nonneg h (h p0 (List.getElem?_mem heq))

/-- `Add VP` preserves non-negative totals: the committed total is
clamped. -/
lemma handleAddVP_nonneg (s : GameState)
    (h : ∀ p ∈ s.players, 0 ≤ p.totalVP) :
    ∀ p ∈ (handleAddVP s).players, 0 ≤ p.totalVP := by
  unfold handleAddVP
  split
  · split
    · exact h
    · split
      · exact h
      · split
        · exact h
        · exact set_preserves_nonneg h (commitVP_nonneg _ _)
  · exact h

/-- The commit phase of `endTurn` preserves non-negative totals. -/
lemma endTurnCommitPhase_nonneg (s : GameState) (cp : Player)
    (h : ∀ p ∈ s.players, 0 ≤ p.totalVP) :
    ∀ p ∈ (endTurnCommitPhase s cp).1.players, 0 ≤ p.totalVP := by
  unfold endTurnCommitPhase
  split
  · exact set_preserves_nonneg h (commitVP_nonneg _ _)
  · split <;> exact h

/-- `endTurn` preserves non-negative totals. -/
lemma handleEndTurn_nonneg (g : String) (s : GameState)
    (h : ∀ p ∈ s.players, 0 ≤ p.totalVP) :
    ∀ p ∈ (handleEndTurn g s).state.players, 0 ≤ p.totalVP := by
  unfold handleEndTurn
  split
  · split
    · exact h
    · split
      · exact h
      · dsimp only
        split
        · exact endTurnCommitPhase_nonneg s _ h
        · split
          · exact endTurnCommitPhase_nonneg s _ h
          · exact endTurnCommitPhase_nonneg s _ h
  · exact h

/-- Every operation preserves non-negative totals. -/
lemma step_nonneg (g : String) (a : Action) (s : GameState)
    (h : ∀ p ∈ s.players, 0 ≤ p.totalVP) :
    ∀ p ∈ (step g a s).state.players, 0 ≤ p.totalVP := by
  have hst : (step g a s).state = checkVictoryPoints (stepRaw g a s).state := rfl
  rw [hst, checkVictoryPoints_players]
  cases a with
  | toggleTimer => exact h
  | setTurnVP i v => exact updatePlayerTurnVP_nonneg i v s h
  | addVP => exact handleAddVP_nonneg s h
  | endTurn => exact handleEndTurn_nonneg g s h
  | tick =>
    show ∀ p ∈ (if s.isRunning then _ else s).players, 0 ≤ p.totalVP
    split <;> exact h
  | totalTick => exact h

/-- Any run of operations preserves non-negative totals. -/
lemma run_nonneg (g : String) (acts : List Action) :
    ∀ s : GameState, (∀ p ∈ s.players, 0 ≤ p.totalVP) →
      ∀ p ∈ (run g acts s).1.players, 0 ≤ p.totalVP := by
  induction acts with
  | nil => intro s h; exact h
  | cons a rest ih =>
    intro s h
    have h1 : (run g (a :: rest) s).1 = (run g rest (step g a s).state).1 := rfl
    rw [h1]
    exact ih (step g a s).state (step_nonneg g a s h)

/-- C4: starting from players with non-negative totals (as created, with
`total_vp: 0`), no sequence of operations — Add VP commits, endTurn
commits, negative deltas included — ever makes any player's totalVP
negative: every commit clamps at zero. -/
theorem totalVP_never_negative (g : String) (ps : List Player) (acts : List Action)
    (h : ∀ p ∈ ps, 0 ≤ p.totalVP) :
    ∀ p ∈ (run g acts (initialState ps)).1.players, 0 ≤ p.totalVP :=
  run_nonneg g acts (initialState ps) h

/-- C4 witness: the clamping scenario (total 2, committed delta −5) ends
with every total still non-negative. -/
theorem totalVP_never_negative_w :
    ((run "g" [Action.toggleTimer, Action.setTurnVP 0 (-5), Action.endTurn]
        (initialState clampPlayers)).1.players.all
      (fun p => decide (0 ≤ p.totalVP))) = true := by
  apply List.all_eq_true.mpr
  intro p hp
  exact decide_eq_true
    (totalVP_never_negative "g" clampPlayers
      [Action.toggleTimer, Action.setTurnVP 0 (-5), Action.endTurn]
      (by decide) p hp)

/-! ## C8 — derived duration statistics -/

/-- The stats fold over the whole ledger, evaluated at one name, is the
fold of just that player's turns over any starting record map: each ledger
turn only updates its player's record. -/
lemma stats_fold_apply (turns : List Turn) (name : String) :
    ∀ f : String → PlayerStats,
      turns.foldl
        (fun stats t => fun n =>
          if n = t.playerName then statsUpdate t (stats t.playerName)
          else stats n)
        f name =
      (turns.filter (fun t => decide (t.playerName = name))).foldl
        (fun st t => statsUpdate t st) (f name) := by
  induction turns with
  | nil => intro f; rfl
  | cons t ts ih =>
    intro f
    by_cases hn : t.playerName = name
    · rw [List.foldl_cons, ih, List.filter_cons_of_pos (by simpa using hn),
        List.foldl_cons]
      congr 1
      rw [if_pos hn.symm, hn]
    · rw [List.foldl_cons, ih, List.filter_cons_of_neg (by simpa using hn)]
      congr 1
      rw [if_neg (fun he => hn he.symm)]

/-- Evaluating the stats map at one name is the fold of that player's own
turns from the zeroed record. -/
lemma playerStats_eq_filter_fold (percentages : String → Nat) (turns : List Turn)
    (name : String) :
    playerStats percentages turns name =
      (turns.filter (fun t => decide (t.playerName = name))).foldl
        (fun st t => statsUpdate t st)
        { lastTurn := 0, averageTurn := 0, totalTime := 0, turnCount := 0,
          percentage := percentages name } := by
  unfold playerStats
  exact stats_fold_apply turns name _

/-- Folding the per-turn update over a non-empty list of turns yields the
most recent duration, the accumulated total and count, and the rounded
average of the accumulated total. -/
lemma statsUpdate_foldl (l : List Turn) :
    ∀ (st : PlayerStats) (h : l ≠ []),
    l.foldl (fun st t => statsUpdate t st) st =
      { lastTurn := (l.getLast h).duration
        averageTurn := jsRoundDiv (st.totalTime + (l.map Turn.duration).sum)
          (st.turnCount + l.length)
        totalTime := st.totalTime + (l.map Turn.duration).sum
        turnCount := st.turnCount + l.length
        percentage := st.percentage } := by
  induction l with
  | nil => intro st h; exact absurd rfl h
  | cons x xs ih =>
    intro st h
    by_cases hxs : xs = []
    · subst hxs
      simp [statsUpdate]
    · rw [List.foldl_cons, ih (statsUpdate x st) hxs]
      have hlast : ((x :: xs).getLast h) = xs.getLast hxs := List.getLast_cons hxs
      have htot : (statsUpdate x st).totalTime = st.totalTime + x.duration := rfl
      have hcnt : (statsUpdate x st).turnCount = st.turnCount + 1 := rfl
      have hpct : (statsUpdate x st).percentage = st.percentage := rfl
      rw [hlast, htot, hcnt, hpct]
      have h1 : st.totalTime + x.duration + (xs.map Turn.duration).sum =
          st.totalTime + ((x :: xs).map Turn.duration).sum := by
        simp [List.map_cons]; omega
      have h2 : st.turnCount + 1 + xs.length = st.turnCount + (x :: xs).length := by
        simp [List.length_cons]; omega
      rw [h1, h2]

/-- C8: for a player with at least one ledger entry, the derived
`averageTurn` is `Math.round` of total duration over turn count, and
`lastTurn` is the duration of the player's most recent ledger entry. -/
theorem stats_average_and_last (percentages : String → Nat) (turns : List Turn)
    (name : String)
    (h : turns.filter (fun t => decide (t.playerName = name)) ≠ []) :
    (playerStats percentages turns name).averageTurn =
      jsRoundDiv
        (((turns.filter (fun t => decide (t.playerName = name))).map
          Turn.duration).sum)
        (turns.filter (fun t => decide (t.playerName = name))).length ∧
    (playerStats percentages turns name).lastTurn =
      ((turns.filter (fun t => decide (t.playerName = name))).getLast h).duration := by
  rw [playerStats_eq_filter_fold, statsUpdate_foldl _ _ h]
  constructor
  · simp
  · rfl

/-- C8 witness: from the demo ledger, P1's two turns of 10000 ms and
5000 ms give average round(15000/2) = 7500 and last turn 5000. -/
theorem stats_average_and_last_w :
    (playerStats (fun _ => 0) demoTurns "P1").averageTurn = 7500 ∧
    (playerStats (fun _ => 0) demoTurns "P1").lastTurn = 5000 := by
  have h := stats_average_and_last (fun _ => 0) demoTurns "P1" (by decide)
  exact ⟨h.1.trans (by decide), h.2.trans (by decide)⟩

/-! ## C9 — persistence failures are result values, not exceptions -/

/-- C9: each gateway operation converts the outcome of its underlying
calls into a returned `{ data, error }` value — the internal throws of
`saveTurn` are caught by its own wrapper and surface in the `error` field,
and the single-call operations pass their outcome through — and the full
session save returns a boolean while leaving the session state exactly as
it was apart from pausing the clock, on failure and success alike. -/
theorem persistence_errors_as_values (vp : List Int) (o : SaveTurnOutcome)
    (og : DbResult GameStatsRow) (op : DbResult Player)
    (s : GameState) (od : SaveGameDataOutcome) :
    (∀ row, saveTurnBody vp o = Except.ok row →
      saveTurn vp o = { data := some row, error := none }) ∧
    (∀ e, saveTurnBody vp o = Except.error e →
      saveTurn vp o = { data := none, error := some e }) ∧
    (∀ r, og = DbResult.ok r →
      saveGameStats og = { data := some r, error := none }) ∧
    (∀ e, og = DbResult.err e →
      saveGameStats og = { data := none, error := some e }) ∧
    (∀ r, op = DbResult.ok r →
      updatePlayerTotalVP op = { data := some r, error := none }) ∧
    (∀ e, op = DbResult.err e →
      updatePlayerTotalVP op = { data := none, error := some e }) ∧
    (saveGameData s od).2 = { s with isRunning := false } := by
  refine ⟨?_, ?_, ?_, ?_, ?_, ?_, ?_⟩
  · intro row h; unfold saveTurn; rw [h]
  · intro e h; unfold saveTurn; rw [h]
  · intro r h; rw [h]; rfl
  · intro e h; rw [h]; rfl
  · intro r h; rw [h]; rfl
  · intro e h; rw [h]; rfl
  · unfold saveGameData
    split
    · rfl
    · split
      · rfl
      · split
        · rfl
        · split
          · split <;> rfl
          · rfl

/-- C9 witness: a failed `turns` insert surfaces as an error value from
`saveTurn`, and a failed `games` update makes the full save report `false`
while the session state is only paused, not otherwise changed. -/
theorem persistence_errors_as_values_w :
    saveTurn [] failTurnOutcome = { data := none, error := some "boom" } ∧
    (saveGameData (initialState onePlayer) failSaveOutcome).2 =
      { initialState onePlayer with isRunning := false } ∧
    (saveGameData (initialState onePlayer) failSaveOutcome).1 = false := by
  have h := persistence_errors_as_values [] failTurnOutcome
    (DbResult.err "x") (DbResult.err "x") (initialState onePlayer) failSaveOutcome
  exact ⟨h.2.1 "boom" rfl, h.2.2.2.2.2.2, rfl⟩

end LapTimer
